import Mathlib

/-!
Shallow embedding of `src/py/flwr/server/state/sqlite_state.py`
(class `SqliteState` and its helper functions).

Modelling conventions:

* The SQLite database is a `State` value holding the three tables
  (`task_ins`, `task_res`, `node`) as Lean lists of rows.
* Timestamps are abstract time points (`Nat`, seconds); the RFC-3339
  rendering `datetime.isoformat` is injective and order-preserving, so a
  stored timestamp column is modelled by the time point itself.
  `timedelta(hours=24)` is `86400` seconds.
* The `delivered_at` column is either the empty string or a rendered
  timestamp in the Python code; it is modelled as `Option Nat`
  (`none` = the empty string `""`, `some t` = the timestamp `t`).
* The wall clock `_now()` and the fresh UUID `uuid4()` are external
  inputs of the Python functions; they are passed to the Lean functions
  as explicit arguments (`now : Nat`, `uid : String`).
* `AssertionError` (the `limit` precondition) is modelled with
  `Except String`; all other paths are total.
* Python `Set[UUID]` arguments are modelled as `List String` (the code
  only uses membership via SQL `IN`, for which a list is equivalent).
-/

namespace FlwrState

/-- Protobuf `Node` message: the producer/consumer addressing of a task. -/
structure Node where
  node_id : Int
  anonymous : Bool
deriving DecidableEq, Repr

/-- Protobuf `Task` message body shared by `TaskIns` and `TaskRes`.
`payload` stands for the opaque serialized bytes carried in
`legacy_server_message` (TaskIns direction) or `legacy_client_message`
(TaskRes direction); the store never interprets them. -/
structure Task where
  producer : Node
  consumer : Node
  created_at : Nat
  delivered_at : Option Nat
  ttl : Nat
  ancestry : List String
  payload : List Nat
deriving DecidableEq, Repr

/-- Protobuf `TaskIns` / `TaskRes` record. The two messages have the same
shape (the spec: "TaskRes: same shape as TaskIns"); a single Lean
structure stands for both, the table an operation touches tells which. -/
structure TaskMsg where
  task_id : String
  group_id : String
  workload_id : String
  task : Task
deriving DecidableEq, Repr

/-- One row of the `task_ins` or `task_res` SQLite table, with the column
set of `SQL_CREATE_TABLE_TASK_INS` / `SQL_CREATE_TABLE_TASK_RES`. -/
structure Row where
  task_id : String
  group_id : String
  workload_id : String
  producer_anonymous : Bool
  producer_node_id : Int
  consumer_anonymous : Bool
  consumer_node_id : Int
  created_at : Nat
  delivered_at : Option Nat
  ttl : Nat
  ancestry : String
  legacy_server_message : Option (List Nat)
  legacy_client_message : Option (List Nat)
deriving DecidableEq, Repr

/-- The whole database: the three tables created by `initialize`. -/
structure State where
  task_ins : List Row
  task_res : List Row
  node : List Int
deriving DecidableEq, Repr

/-! ### The comma codec for the `ancestry` column

`task_ins_to_dict` stores `",".join(task.ancestry)`; `dict_to_task_ins`
reads it back with `.split(",")`.  Python string semantics, transcribed
on `List Char`: `join` puts one `','` between consecutive parts;
`split` cuts at every `','`, so it always returns at least one part and
`"".split(",") == [""]`. -/

/-- Python `",".join(parts)` on character lists. -/
def joinComma : List (List Char) → List Char
  | [] => []
  | [x] => x
  | x :: y :: rest => x ++ ',' :: joinComma (y :: rest)

/-- Helper for `splitComma`: returns the segment before the first `','`
and the list of the remaining segments. -/
def splitCommaAux : List Char → List Char × List (List Char)
  | [] => ([], [])
  | c :: rest =>
    let r := splitCommaAux rest
    if c = ',' then ([], r.1 :: r.2) else (c :: r.1, r.2)

/-- Python `s.split(",")` on character lists: the list of segments,
always non-empty. -/
def splitComma (s : List Char) : List (List Char) :=
  (splitCommaAux s).1 :: (splitCommaAux s).2

/-- Python `",".join(ancestry)` as used by `task_ins_to_dict` /
`task_res_to_dict`. -/
def joinAncestry (l : List String) : String :=
  String.mk (joinComma (l.map String.data))

/-- Python `ancestry.split(",")` as used by `dict_to_task_ins` /
`dict_to_task_res`. -/
def splitAncestry (s : String) : List String :=
  (splitComma s.data).map String.mk

/-! ### Record codec (`task_ins_to_dict` and friends) -/

/-- `task_ins_to_dict`: flatten a `TaskIns` into a `task_ins` row.
The payload goes into `legacy_server_message`; `legacy_client_message`
is `None`. -/
def task_ins_to_dict (task_msg : TaskMsg) : Row :=
  { task_id := task_msg.task_id
    group_id := task_msg.group_id
    workload_id := task_msg.workload_id
    producer_anonymous := task_msg.task.producer.anonymous
    producer_node_id := task_msg.task.producer.node_id
    consumer_anonymous := task_msg.task.consumer.anonymous
    consumer_node_id := task_msg.task.consumer.node_id
    created_at := task_msg.task.created_at
    delivered_at := task_msg.task.delivered_at
    ttl := task_msg.task.ttl
    ancestry := joinAncestry task_msg.task.ancestry
    legacy_server_message := some task_msg.task.payload
    legacy_client_message := none }

/-- `task_res_to_dict`: flatten a `TaskRes` into a `task_res` row.
The payload goes into `legacy_client_message`; `legacy_server_message`
is `None`. -/
def task_res_to_dict (task_msg : TaskMsg) : Row :=
  { task_id := task_msg.task_id
    group_id := task_msg.group_id
    workload_id := task_msg.workload_id
    producer_anonymous := task_msg.task.producer.anonymous
    producer_node_id := task_msg.task.producer.node_id
    consumer_anonymous := task_msg.task.consumer.anonymous
    consumer_node_id := task_msg.task.consumer.node_id
    created_at := task_msg.task.created_at
    delivered_at := task_msg.task.delivered_at
    ttl := task_msg.task.ttl
    ancestry := joinAncestry task_msg.task.ancestry
    legacy_server_message := none
    legacy_client_message := some task_msg.task.payload }

/-- `dict_to_task_ins`: rebuild a `TaskIns` from a `task_ins` row
(ancestry is split on `","`; the payload bytes are parsed back). -/
def dict_to_task_ins (task_dict : Row) : TaskMsg :=
  { task_id := task_dict.task_id
    group_id := task_dict.group_id
    workload_id := task_dict.workload_id
    task :=
      { producer :=
          { node_id := task_dict.producer_node_id
            anonymous := task_dict.producer_anonymous }
        consumer :=
          { node_id := task_dict.consumer_node_id
            anonymous := task_dict.consumer_anonymous }
        created_at := task_dict.created_at
        delivered_at := task_dict.delivered_at
        ttl := task_dict.ttl
        ancestry := splitAncestry task_dict.ancestry
        payload := task_dict.legacy_server_message.getD [] } }

/-- `dict_to_task_res`: rebuild a `TaskRes` from a `task_res` row. -/
def dict_to_task_res (task_dict : Row) : TaskMsg :=
  { task_id := task_dict.task_id
    group_id := task_dict.group_id
    workload_id := task_dict.workload_id
    task :=
      { producer :=
          { node_id := task_dict.producer_node_id
            anonymous := task_dict.producer_anonymous }
        consumer :=
          { node_id := task_dict.consumer_node_id
            anonymous := task_dict.consumer_anonymous }
        created_at := task_dict.created_at
        delivered_at := task_dict.delivered_at
        ttl := task_dict.ttl
        ancestry := splitAncestry task_dict.ancestry
        payload := task_dict.legacy_client_message.getD [] } }

/-! ### Validator (external collaborator) -/

/-- Modelled from the spec: `flwr.server.utils.validator.validate_task_ins_or_res`
is imported by `sqlite_state.py` but its source is not part of this
repository snapshot.  Spec section 4.4 gives its rule: accept iff either
(`consumer_anonymous == true` and `consumer_node_id == 0`) or
(`consumer_anonymous == false` and `consumer_node_id != 0`); any other
combination is a validation failure, reported as a non-empty error list. -/
def validate_task_ins_or_res (t : TaskMsg) : List String :=
  if (t.task.consumer.anonymous && t.task.consumer.node_id == 0)
      || (!t.task.consumer.anonymous && t.task.consumer.node_id != 0) then
    []
  else
    ["invalid consumer addressing"]

/-! ### Store operations -/

/-- `store_task_ins`: validate, mint `task_id := uid`, stamp
`created_at := now` and `ttl := now + 24h`, insert the encoded row.
Python guard `if any(errors)`: a list of strings is truthy iff it has a
non-empty element. -/
def store_task_ins (s : State) (task_ins : TaskMsg) (uid : String) (now : Nat) :
    Option String × State :=
  let errors := validate_task_ins_or_res task_ins
  if errors.any (fun e => e != "") then
    (none, s)
  else
    let t :=
      { task_ins with
        task_id := uid
        task := { task_ins.task with created_at := now, ttl := now + 86400 } }
    (some uid, { s with task_ins := s.task_ins ++ [task_ins_to_dict t] })

/-- `store_task_res`: same as `store_task_ins` for the `task_res` table. -/
def store_task_res (s : State) (task_res : TaskMsg) (uid : String) (now : Nat) :
    Option String × State :=
  let errors := validate_task_ins_or_res task_res
  if errors.any (fun e => e != "") then
    (none, s)
  else
    let t :=
      { task_res with
        task_id := uid
        task := { task_res.task with created_at := now, ttl := now + 86400 } }
    (some uid, { s with task_res := s.task_res ++ [task_res_to_dict t] })

/-! ### Get operations -/

/-- The message of the `AssertionError` raised when `limit < 1`. -/
def limitError : String := "limit must be >= 1"

/-- The Python guard `limit is not None and limit < 1`. -/
def badLimit : Option Int → Bool
  | some l => decide (l < 1)
  | none => false

/-- SQL `LIMIT :limit` appended to a SELECT when `limit` is given. -/
def applyLimit (limit : Option Int) (rows : List Row) : List Row :=
  match limit with
  | some l => rows.take l.toNat
  | none => rows

/-- The first SELECT of `get_task_ins`: anonymous rows when `node_id` is
`None`, otherwise rows directed at `node_id`.  Note: the Python query
has no `delivered_at` condition. -/
def get_task_ins_select (s : State) (node_id : Option Int) (limit : Option Int) :
    List Row :=
  let base :=
    match node_id with
    | none =>
      s.task_ins.filter fun r => r.consumer_anonymous && r.consumer_node_id == 0
    | some n =>
      s.task_ins.filter fun r => !r.consumer_anonymous && r.consumer_node_id == n
  applyLimit limit base

/-- The first SELECT of `get_task_res`: rows whose `ancestry` column is
in the id set and whose `delivered_at` is the empty string. -/
def get_task_res_select (s : State) (task_ids : List String) (limit : Option Int) :
    List Row :=
  applyLimit limit
    (s.task_res.filter fun r => task_ids.contains r.ancestry && r.delivered_at.isNone)

/-- `UPDATE ... SET delivered_at = :delivered_at` on one row. -/
def deliver (now : Nat) (r : Row) : Row :=
  { r with delivered_at := some now }

/-- The UPDATE of `get_task_ins` / `get_task_res`:
`UPDATE t SET delivered_at = now WHERE task_id IN (ids)`. -/
def markDelivered (table : List Row) (ids : List String) (now : Nat) : List Row :=
  table.map fun r => if ids.contains r.task_id then deliver now r else r

/-- `get_task_ins`: raise on a bad `limit`; return `[]` for `node_id == 0`;
select candidate ids; if any, mark them delivered and return the decoded
rows of the `RETURNING *` clause. -/
def get_task_ins (s : State) (node_id : Option Int) (limit : Option Int)
    (now : Nat) : Except String (List TaskMsg × State) :=
  if badLimit limit then Except.error limitError
  else if node_id = some 0 then Except.ok ([], s)
  else
    let rows := get_task_ins_select s node_id limit
    if rows.isEmpty then Except.ok ([], s)
    else
      let ids := rows.map Row.task_id
      let updated := markDelivered s.task_ins ids now
      let returned := updated.filter fun r => ids.contains r.task_id
      Except.ok (returned.map dict_to_task_ins, { s with task_ins := updated })

/-- `get_task_res`: raise on a bad `limit`; return `[]` on an empty id
set; select undelivered rows whose ancestry is in the set; if any, mark
them delivered and return the decoded rows. -/
def get_task_res (s : State) (task_ids : List String) (limit : Option Int)
    (now : Nat) : Except String (List TaskMsg × State) :=
  if badLimit limit then Except.error limitError
  else if task_ids.isEmpty then Except.ok ([], s)
  else
    let rows := get_task_res_select s task_ids limit
    if rows.isEmpty then Except.ok ([], s)
    else
      let ids := rows.map Row.task_id
      let updated := markDelivered s.task_res ids now
      let returned := updated.filter fun r => ids.contains r.task_id
      Except.ok (returned.map dict_to_task_res, { s with task_res := updated })

/-! ### Counting and cleanup -/

/-- `num_task_ins`: `SELECT count(*) FROM task_ins`. -/
def num_task_ins (s : State) : Nat :=
  s.task_ins.length

/-- `num_task_res`: `SELECT count(*) FROM task_res`. -/
def num_task_res (s : State) : Nat :=
  s.task_res.length

/-- `delete_tasks`: no-op on an empty set; otherwise, in one transaction,
first delete the `task_ins` rows that are delivered and whose `task_id`
is the `ancestry` of some delivered `task_res` row with `ancestry` in
the set, then delete the `task_res` rows with `ancestry` in the set that
are delivered. -/
def delete_tasks (s : State) (task_ids : List String) : State :=
  if task_ids.isEmpty then s
  else
    let resTargets :=
      (s.task_res.filter fun q =>
        task_ids.contains q.ancestry && q.delivered_at.isSome).map Row.ancestry
    let newIns :=
      s.task_ins.filter fun r =>
        !(r.delivered_at.isSome && resTargets.contains r.task_id)
    let newRes :=
      s.task_res.filter fun q =>
        !(task_ids.contains q.ancestry && q.delivered_at.isSome)
    { s with task_ins := newIns, task_res := newRes }

/-! ### Node registry -/

/-- `register_node`: `INSERT INTO node VALUES(:id)`. -/
def register_node (s : State) (node_id : Int) : State :=
  { s with node := s.node ++ [node_id] }

/-- `unregister_node`: `DELETE FROM node WHERE id = :id`. -/
def unregister_node (s : State) (node_id : Int) : State :=
  { s with node := s.node.filter fun i => i != node_id }


/-! ### Concrete fixtures used in scenarios and witnesses -/

/-- The empty database, as `initialize` creates it. -/
def emptyState : State :=
  { task_ins := [], task_res := [], node := [] }

/-- A `task_ins` row addressed anonymously (consumer node 0), with a given
`task_id` and `delivered_at` value. -/
def anonInsRow (tid : String) (d : Option Nat) : Row :=
  { task_id := tid, group_id := "g", workload_id := "w",
    producer_anonymous := true, producer_node_id := 0,
    consumer_anonymous := true, consumer_node_id := 0,
    created_at := 0, delivered_at := d, ttl := 86400, ancestry := "",
    legacy_server_message := some [], legacy_client_message := none }

/-- A `task_res` row with a given `task_id`, stored `ancestry` string and
`delivered_at` value. -/
def resRow (tid anc : String) (d : Option Nat) : Row :=
  { task_id := tid, group_id := "g", workload_id := "w",
    producer_anonymous := true, producer_node_id := 0,
    consumer_anonymous := true, consumer_node_id := 0,
    created_at := 0, delivered_at := d, ttl := 86400, ancestry := anc,
    legacy_server_message := none, legacy_client_message := some [] }

/-- A record passing the consumer-addressing validator (anonymous, node 0),
with a caller-chosen `delivered_at` and ancestry. -/
def anonMsg (d : Option Nat) (anc : List String) : TaskMsg :=
  { task_id := "caller-chosen", group_id := "g", workload_id := "w",
    task := { producer := { node_id := 0, anonymous := true },
              consumer := { node_id := 0, anonymous := true },
              created_at := 123, delivered_at := d, ttl := 456,
              ancestry := anc, payload := [] } }

/-- A record the validator rejects: anonymous consumer with node id 42. -/
def invalidMsg : TaskMsg :=
  { task_id := "caller-chosen", group_id := "g", workload_id := "w",
    task := { producer := { node_id := 0, anonymous := true },
              consumer := { node_id := 42, anonymous := true },
              created_at := 123, delivered_at := none, ttl := 456,
              ancestry := [], payload := [] } }

/-! ### Codec and delivery lemmas -/

theorem contains_eq_true_iff {l : List String} {a : String} :
    l.contains a = true ↔ a ∈ l := by
  simp [List.contains, List.elem_iff]

theorem splitCommaAux_append (x rest : List Char) (hx : ',' ∉ x) :
    splitCommaAux (x ++ rest) =
      (x ++ (splitCommaAux rest).1, (splitCommaAux rest).2) := by
  induction x with
  | nil => simp
  | cons c x ih =>
    have hc : ¬(c = ',') := fun h => hx (h ▸ List.mem_cons_self c x)
    have hx' : ',' ∉ x := fun h => hx (List.mem_cons_of_mem c h)
    simp only [List.cons_append, splitCommaAux, List.append_eq, if_neg hc, ih hx']

theorem splitCommaAux_of_no_comma (x : List Char) (h : ',' ∉ x) :
    splitCommaAux x = (x, []) := by
  have := splitCommaAux_append x [] h
  simpa [splitCommaAux] using this

theorem splitCommaAux_joinComma (x : List Char) (xs : List (List Char))
    (h : ∀ p ∈ x :: xs, ',' ∉ p) :
    splitCommaAux (joinComma (x :: xs)) = (x, xs) := by
  induction xs generalizing x with
  | nil =>
    exact splitCommaAux_of_no_comma x (h x (List.mem_cons_self _ _))
  | cons y ys ih =>
    have hx : ',' ∉ x := h x (List.mem_cons_self _ _)
    have h' : ∀ p ∈ y :: ys, ',' ∉ p := fun p hp => h p (List.mem_cons_of_mem _ hp)
    have hrec := ih y h'
    show splitCommaAux (x ++ ',' :: joinComma (y :: ys)) = (x, y :: ys)
    rw [splitCommaAux_append x _ hx]
    simp [splitCommaAux, hrec]

theorem splitComma_joinComma (l : List (List Char)) (hne : l ≠ [])
    (h : ∀ p ∈ l, ',' ∉ p) : splitComma (joinComma l) = l := by
  cases l with
  | nil => exact absurd rfl hne
  | cons x xs =>
    simp [splitComma, splitCommaAux_joinComma x xs h]

theorem mk_data_eq (s : String) : String.mk s.data = s := rfl

theorem splitAncestry_joinAncestry (l : List String) (hne : l ≠ [])
    (h : ∀ a ∈ l, ',' ∉ a.data) :
    splitAncestry (joinAncestry l) = l := by
  unfold splitAncestry joinAncestry
  rw [show (String.mk (joinComma (l.map String.data))).data
        = joinComma (l.map String.data) from rfl]
  rw [splitComma_joinComma]
  · rw [List.map_map]
    have hid : ∀ a ∈ l, (String.mk ∘ String.data) a = a := fun a _ => rfl
    rw [List.map_congr_left hid]
    simp
  · simpa using hne
  · intro p hp
    obtain ⟨a, ha, rfl⟩ := List.mem_map.mp hp
    exact h a ha

theorem splitAncestry_of_no_comma (s : String) (h : ',' ∉ s.data) :
    splitAncestry s = [s] := by
  unfold splitAncestry splitComma
  rw [splitCommaAux_of_no_comma s.data h]
  simp [mk_data_eq]

theorem joinAncestry_singleton (a : String) : joinAncestry [a] = a := rfl

theorem nodup_length_le {α : Type _} [DecidableEq α] {l ids : List α}
    (hnd : l.Nodup) (hsub : ∀ x ∈ l, x ∈ ids) : l.length ≤ ids.length := by
  calc l.length = l.toFinset.card := (List.toFinset_card_of_nodup hnd).symm
    _ ≤ ids.toFinset.card := by
        apply Finset.card_le_card
        intro x hx
        rw [List.mem_toFinset] at hx ⊢
        exact hsub x hx
    _ ≤ ids.length := List.toFinset_card_le ids

theorem map_task_id_markDelivered (table : List Row) (ids : List String) (now : Nat) :
    (markDelivered table ids now).map Row.task_id = table.map Row.task_id := by
  unfold markDelivered
  rw [List.map_map]
  apply List.map_congr_left
  intro r _
  by_cases h : r.task_id ∈ ids <;> simp [h, deliver]

theorem mem_returned {table sel : List Row} {now : Nat}
    (hnd : (table.map Row.task_id).Nodup) (hsub : ∀ x ∈ sel, x ∈ table)
    {row : Row}
    (hm : row ∈ (markDelivered table (sel.map Row.task_id) now).filter
        (fun r => (sel.map Row.task_id).contains r.task_id)) :
    ∃ orig ∈ sel, row = deliver now orig := by
  rw [List.mem_filter] at hm
  obtain ⟨hmem, hid⟩ := hm
  unfold markDelivered at hmem
  obtain ⟨o, ho, heq⟩ := List.mem_map.mp hmem
  by_cases hc : (sel.map Row.task_id).contains o.task_id
  · rw [if_pos hc] at heq
    have hidmem : o.task_id ∈ sel.map Row.task_id := contains_eq_true_iff.mp hc
    obtain ⟨r', hr', hr'id⟩ := List.mem_map.mp hidmem
    have hro : r' = o := List.inj_on_of_nodup_map hnd (hsub r' hr') ho hr'id
    subst hro
    exact ⟨r', hr', heq.symm⟩
  · rw [if_neg hc] at heq
    subst heq
    exact absurd hid hc

theorem returned_length_le (table : List Row) (ids : List String) (now : Nat)
    (hnd : (table.map Row.task_id).Nodup) :
    ((markDelivered table ids now).filter
        (fun r => ids.contains r.task_id)).length ≤ ids.length := by
  have hnd2 : ((markDelivered table ids now).map Row.task_id).Nodup := by
    rw [map_task_id_markDelivered]; exact hnd
  have hsl : List.Sublist ((markDelivered table ids now).filter
      (fun r => ids.contains r.task_id)) (markDelivered table ids now) :=
    List.filter_sublist _
  have hnd' : (((markDelivered table ids now).filter
      (fun r => ids.contains r.task_id)).map Row.task_id).Nodup :=
    List.Nodup.sublist (List.Sublist.map Row.task_id hsl) hnd2
  have hsub : ∀ x ∈ ((markDelivered table ids now).filter
      (fun r => ids.contains r.task_id)).map Row.task_id, x ∈ ids := by
    intro x hx
    obtain ⟨r, hr, rfl⟩ := List.mem_map.mp hx
    exact contains_eq_true_iff.mp (List.mem_filter.mp hr).2
  have hle := nodup_length_le hnd' hsub
  simpa using hle

/-! ### Inversion lemmas for the get operations -/

theorem get_task_ins_ok_inv {s : State} {node_id : Option Int} {limit : Option Int}
    {now : Nat} {res : List TaskMsg} {s' : State}
    (h : get_task_ins s node_id limit now = Except.ok (res, s')) :
    (res = [] ∧ s' = s) ∨
    (node_id ≠ some 0 ∧
      res = ((markDelivered s.task_ins
              ((get_task_ins_select s node_id limit).map Row.task_id) now).filter
              (fun r => ((get_task_ins_select s node_id limit).map Row.task_id).contains
                r.task_id)).map dict_to_task_ins ∧
      s' = { s with task_ins := (markDelivered s.task_ins
              ((get_task_ins_select s node_id limit).map Row.task_id) now) }) := by
  unfold get_task_ins at h
  split at h
  · exact Except.noConfusion h
  · split at h
    · rw [Except.ok.injEq, Prod.mk.injEq] at h
      exact Or.inl ⟨h.1.symm, h.2.symm⟩
    · dsimp only [] at h
      split at h
      · rw [Except.ok.injEq, Prod.mk.injEq] at h
        exact Or.inl ⟨h.1.symm, h.2.symm⟩
      · rw [Except.ok.injEq, Prod.mk.injEq] at h
        rename_i hlim hnid hne
        exact Or.inr ⟨hnid, h.1.symm, h.2.symm⟩

theorem get_task_res_ok_inv {s : State} {task_ids : List String} {limit : Option Int}
    {now : Nat} {res : List TaskMsg} {s' : State}
    (h : get_task_res s task_ids limit now = Except.ok (res, s')) :
    (res = [] ∧ s' = s) ∨
    (res = ((markDelivered s.task_res
              ((get_task_res_select s task_ids limit).map Row.task_id) now).filter
              (fun r => ((get_task_res_select s task_ids limit).map Row.task_id).contains
                r.task_id)).map dict_to_task_res ∧
      s' = { s with task_res := (markDelivered s.task_res
              ((get_task_res_select s task_ids limit).map Row.task_id) now) }) := by
  unfold get_task_res at h
  split at h
  · exact Except.noConfusion h
  · split at h
    · rw [Except.ok.injEq, Prod.mk.injEq] at h
      exact Or.inl ⟨h.1.symm, h.2.symm⟩
    · dsimp only [] at h
      split at h
      · rw [Except.ok.injEq, Prod.mk.injEq] at h
        exact Or.inl ⟨h.1.symm, h.2.symm⟩
      · rw [Except.ok.injEq, Prod.mk.injEq] at h
        exact Or.inr ⟨h.1.symm, h.2.symm⟩

theorem get_task_ins_select_subset {s : State} {node_id : Option Int}
    {limit : Option Int} {r : Row} (h : r ∈ get_task_ins_select s node_id limit) :
    r ∈ s.task_ins := by
  unfold get_task_ins_select applyLimit at h
  rcases node_id with _ | n <;> rcases limit with _ | l <;>
    simp only at h <;>
    first
    | exact (List.mem_filter.mp h).1
    | exact (List.mem_filter.mp (List.take_subset _ _ h)).1

theorem get_task_res_select_subset {s : State} {task_ids : List String}
    {limit : Option Int} {r : Row} (h : r ∈ get_task_res_select s task_ids limit) :
    r ∈ s.task_res := by
  unfold get_task_res_select applyLimit at h
  rcases limit with _ | l <;> simp only at h
  · exact (List.mem_filter.mp h).1
  · exact (List.mem_filter.mp (List.take_subset _ _ h)).1

/-! ### Selection lemmas -/

theorem get_task_ins_select_spec_none {s : State} {limit : Option Int} {r : Row}
    (h : r ∈ get_task_ins_select s none limit) :
    r.consumer_anonymous = true ∧ r.consumer_node_id = 0 := by
  unfold get_task_ins_select applyLimit at h
  have h' : r ∈ s.task_ins.filter
      (fun r => r.consumer_anonymous && r.consumer_node_id == 0) := by
    rcases limit with _ | l
    · exact h
    · exact List.take_subset _ _ h
  have hp := (List.mem_filter.mp h').2
  simpa using hp

theorem get_task_ins_select_spec_some {s : State} {limit : Option Int} {n : Int}
    {r : Row} (h : r ∈ get_task_ins_select s (some n) limit) :
    r.consumer_anonymous = false ∧ r.consumer_node_id = n := by
  unfold get_task_ins_select applyLimit at h
  have h' : r ∈ s.task_ins.filter
      (fun r => !r.consumer_anonymous && r.consumer_node_id == n) := by
    rcases limit with _ | l
    · exact h
    · exact List.take_subset _ _ h
  have hp := (List.mem_filter.mp h').2
  simpa using hp

theorem get_task_res_select_spec {s : State} {task_ids : List String}
    {limit : Option Int} {r : Row} (h : r ∈ get_task_res_select s task_ids limit) :
    r.ancestry ∈ task_ids ∧ r.delivered_at = none := by
  unfold get_task_res_select applyLimit at h
  have h' : r ∈ s.task_res.filter
      (fun r => task_ids.contains r.ancestry && r.delivered_at.isNone) := by
    rcases limit with _ | l
    · exact h
    · exact List.take_subset _ _ h
  have hp := (List.mem_filter.mp h').2
  simp only [Bool.and_eq_true, Option.isNone_iff_eq_none] at hp
  exact ⟨contains_eq_true_iff.mp hp.1, hp.2⟩

theorem get_task_ins_select_length_le (s : State) (node_id : Option Int) (l : Int) :
    (get_task_ins_select s node_id (some l)).length ≤ l.toNat := by
  unfold get_task_ins_select applyLimit
  rcases node_id with _ | n <;> exact List.length_take_le _ _

theorem get_task_res_select_length_le (s : State) (task_ids : List String) (l : Int) :
    (get_task_res_select s task_ids (some l)).length ≤ l.toNat := by
  unfold get_task_res_select applyLimit
  exact List.length_take_le _ _

/-! ### Claims -/

theorem contains_eq_false_iff {l : List String} {a : String} :
    l.contains a = false ↔ a ∉ l := by
  constructor
  · intro h h'
    have hc := contains_eq_true_iff.mpr h'
    rw [h] at hc
    exact Bool.noConfusion hc
  · intro h
    cases hc : l.contains a
    · rfl
    · exact absurd (contains_eq_true_iff.mp hc) h

/-- C1: the spec claims `get_task_ins` returns only pending records
(`delivered_at == ""`) so that a second identical call returns the empty
list.  The code's first SELECT has no `delivered_at` condition, so on a
one-row state the first call delivers the row and a second identical
call still returns one record, whose `delivered_at` is non-empty. -/
theorem C1_get_task_ins_returns_delivered_rows :
    (get_task_ins { task_ins := [anonInsRow "t1" none], task_res := [], node := [] }
        none none 5 =
      Except.ok ([dict_to_task_ins (anonInsRow "t1" (some 5))],
        { task_ins := [anonInsRow "t1" (some 5)], task_res := [], node := [] })) ∧
    ((get_task_ins { task_ins := [anonInsRow "t1" (some 5)], task_res := [], node := [] }
        none none 6).toOption.map (fun p => p.1.map (fun r => r.task.delivered_at)) =
      some [some 6]) :=
  ⟨rfl, rfl⟩

/-- C3: the spec claims a non-empty `delivered_at` is never changed.
Because `get_task_ins` selects rows regardless of `delivered_at`, a call
at a later wall-clock time overwrites the row's non-empty `delivered_at`
(here `some 5` becomes `some 7`). -/
theorem C3_nonempty_delivered_at_overwritten :
    ((({ task_ins := [anonInsRow "t3" (some 5)], task_res := [], node := [] } :
        State)).task_ins.map Row.delivered_at = [some 5]) ∧
    ((get_task_ins { task_ins := [anonInsRow "t3" (some 5)], task_res := [], node := [] }
        none none 7).toOption.map (fun p => p.2.task_ins.map Row.delivered_at) =
      some [some 7]) :=
  ⟨rfl, rfl⟩

/-- C2 counterexample: a delivered TaskRes whose `task_id` is in the given
set is NOT removed by `delete_tasks`, because the code matches the set
against the `ancestry` column, not against `task_id`.  Here the TaskRes
has `task_id = "res-1"` (in the set) and `ancestry = "ins-1"` (not in
the set), is delivered, and survives the call. -/
theorem C2_counterexample :
    (resRow "res-1" "ins-1" (some 5)).task_id ∈ ["res-1"] ∧
    (resRow "res-1" "ins-1" (some 5)).delivered_at ≠ none ∧
    (delete_tasks
        { task_ins := [], task_res := [resRow "res-1" "ins-1" (some 5)], node := [] }
        ["res-1"]).task_res = [resRow "res-1" "ins-1" (some 5)] := by
  refine ⟨List.mem_singleton.mpr rfl, by decide, rfl⟩

/-- C2 amended: after `delete_tasks(S)` a `task_res` row is present iff it
was present and is not (ancestry in S and delivered); a `task_ins` row is
present iff it was present and is not (delivered with `task_id` equal to
the ancestry of some delivered `task_res` row whose ancestry is in S). -/
theorem C2_delete_tasks_cleanup (s : State) (task_ids : List String) :
    (∀ q, q ∈ (delete_tasks s task_ids).task_res ↔
      q ∈ s.task_res ∧ ¬(q.ancestry ∈ task_ids ∧ q.delivered_at ≠ none)) ∧
    (∀ r, r ∈ (delete_tasks s task_ids).task_ins ↔
      r ∈ s.task_ins ∧ ¬(r.delivered_at ≠ none ∧ ∃ q ∈ s.task_res,
        q.ancestry ∈ task_ids ∧ q.delivered_at ≠ none ∧
          q.ancestry = r.task_id)) := by
  unfold delete_tasks
  by_cases hempty : task_ids.isEmpty
  · rw [if_pos hempty]
    rw [List.isEmpty_iff] at hempty
    subst hempty
    constructor
    · intro q; simp
    · intro r; simp
  · rw [if_neg hempty]
    constructor
    · intro q
      simp [List.mem_filter, contains_eq_true_iff]
      tauto
    · intro r
      simp [List.mem_filter, List.mem_map, contains_eq_true_iff,
        contains_eq_false_iff, Option.isSome_iff_ne_none]
      tauto

/-- C5 counterexample: `store_task_ins` does not stamp `delivered_at` to
the empty string.  A record that passes validation but carries a
non-empty `delivered_at` (`some 99`) is stored with that value kept. -/
theorem C5_counterexample :
    (store_task_ins emptyState (anonMsg (some 99) []) "fresh-uid" 1000).1 =
      some "fresh-uid" ∧
    ((store_task_ins emptyState (anonMsg (some 99) []) "fresh-uid" 1000).2.task_ins.map
        Row.delivered_at = [some 99]) :=
  ⟨rfl, rfl⟩

/-- C5 amended: on a validated record, `store_task_ins` / `store_task_res`
append one row whose `task_id` is the freshly minted id, whose
`created_at` is the clock value and whose `ttl` is that value plus 24
hours, regardless of the caller's values of those fields; `delivered_at`
however is stored exactly as the caller supplied it (empty only when the
caller left it empty). -/
theorem C5_store_stamps_fields (s : State) (t : TaskMsg) (uid : String) (now : Nat)
    (h : validate_task_ins_or_res t = []) :
    ((store_task_ins s t uid now).1 = some uid ∧
      ∃ row, (store_task_ins s t uid now).2.task_ins = s.task_ins ++ [row] ∧
        row.task_id = uid ∧ row.created_at = now ∧ row.ttl = now + 86400 ∧
        row.delivered_at = t.task.delivered_at) ∧
    ((store_task_res s t uid now).1 = some uid ∧
      ∃ row, (store_task_res s t uid now).2.task_res = s.task_res ++ [row] ∧
        row.task_id = uid ∧ row.created_at = now ∧ row.ttl = now + 86400 ∧
        row.delivered_at = t.task.delivered_at) := by
  have hguard : (validate_task_ins_or_res t).any (fun e => e != "") = false := by
    rw [h]; rfl
  constructor
  · refine ⟨by simp [store_task_ins, hguard], ?_⟩
    refine ⟨task_ins_to_dict { t with task_id := uid, task := { t.task with created_at := now, ttl := now + 86400 } }, ?_, rfl, rfl, rfl, rfl⟩
    simp [store_task_ins, hguard]
  · refine ⟨by simp [store_task_res, hguard], ?_⟩
    refine ⟨task_res_to_dict { t with task_id := uid, task := { t.task with created_at := now, ttl := now + 86400 } }, ?_, rfl, rfl, rfl, rfl⟩
    simp [store_task_res, hguard]

/-- C5 witness: the amended statement evaluated on a concrete validated
record with empty `delivered_at`. -/
theorem C5_store_stamps_fields_witness :
    validate_task_ins_or_res (anonMsg none ["parent-1"]) = [] ∧
    ((store_task_ins emptyState (anonMsg none ["parent-1"]) "u1" 7).1 = some "u1" ∧
      ∃ row, (store_task_ins emptyState (anonMsg none ["parent-1"]) "u1" 7).2.task_ins =
          emptyState.task_ins ++ [row] ∧
        row.task_id = "u1" ∧ row.created_at = 7 ∧ row.ttl = 7 + 86400 ∧
        row.delivered_at = (anonMsg none ["parent-1"]).task.delivered_at) :=
  ⟨rfl, (C5_store_stamps_fields emptyState (anonMsg none ["parent-1"]) "u1" 7 rfl).1⟩

/-- C6: every row stored by `store_task_ins` or `store_task_res` has
`ttl - created_at` equal to 24 hours (86400 seconds). -/
theorem C6_ttl_law (s : State) (t : TaskMsg) (uid : String) (now : Nat)
    (h : validate_task_ins_or_res t = []) :
    (∃ row, (store_task_ins s t uid now).2.task_ins = s.task_ins ++ [row] ∧
      row.ttl - row.created_at = 86400) ∧
    (∃ row, (store_task_res s t uid now).2.task_res = s.task_res ++ [row] ∧
      row.ttl - row.created_at = 86400) := by
  obtain ⟨⟨-, row1, h1, -, hc1, ht1, -⟩, ⟨-, row2, h2, -, hc2, ht2, -⟩⟩ :=
    C5_store_stamps_fields s t uid now h
  exact ⟨⟨row1, h1, by omega⟩, ⟨row2, h2, by omega⟩⟩

/-- C6 witness: the TTL law evaluated on a concrete validated record. -/
theorem C6_ttl_law_witness :
    validate_task_ins_or_res (anonMsg none []) = [] ∧
    (∃ row, (store_task_ins emptyState (anonMsg none []) "u2" 50).2.task_ins =
        emptyState.task_ins ++ [row] ∧ row.ttl - row.created_at = 86400) :=
  ⟨rfl, (C6_ttl_law emptyState (anonMsg none []) "u2" 50 rfl).1⟩

/-- C7: when the validator rejects a record, `store_task_ins` and
`store_task_res` return a null id and leave the store untouched, so the
row counts are unchanged.  (The validator itself is modelled from the
spec, its source being outside this snapshot.) -/
theorem C7_validation_rejection (s : State) (t : TaskMsg) (uid : String) (now : Nat)
    (h : validate_task_ins_or_res t ≠ []) :
    store_task_ins s t uid now = (none, s) ∧
    store_task_res s t uid now = (none, s) ∧
    num_task_ins (store_task_ins s t uid now).2 = num_task_ins s ∧
    num_task_res (store_task_res s t uid now).2 = num_task_res s := by
  have hv : validate_task_ins_or_res t = ["invalid consumer addressing"] := by
    unfold validate_task_ins_or_res at h ⊢
    split at h
    · exact absurd rfl h
    · rename_i hcond
      rw [if_neg hcond]
  have hguard : (validate_task_ins_or_res t).any (fun e => e != "") = true := by
    rw [hv]; rfl
  have hins : store_task_ins s t uid now = (none, s) := by
    simp [store_task_ins, hguard]
  have hres : store_task_res s t uid now = (none, s) := by
    simp [store_task_res, hguard]
  exact ⟨hins, hres, by rw [hins], by rw [hres]⟩

/-- C7 witness: rejection evaluated on the concrete invalid record
(anonymous consumer with node id 42), on the empty store. -/
theorem C7_validation_rejection_witness :
    validate_task_ins_or_res invalidMsg ≠ [] ∧
    store_task_ins emptyState invalidMsg "u3" 3 = (none, emptyState) ∧
    num_task_ins (store_task_ins emptyState invalidMsg "u3" 3).2 =
      num_task_ins emptyState := by
  have h := C7_validation_rejection emptyState invalidMsg "u3" 3 (by decide)
  exact ⟨by decide, h.1, h.2.2.1⟩

/-- C9 counterexample: for the empty ancestry list the round-trip fails,
because `"".split(",")` is `[""]`, not `[]`: a record with ancestry `[]`
decodes to ancestry `[""]`. -/
theorem C9_counterexample :
    (anonMsg none []).task.ancestry = [] ∧
    (dict_to_task_ins (task_ins_to_dict (anonMsg none []))).task.ancestry = [""] :=
  ⟨rfl, rfl⟩

/-- C9 amended: for every record whose ancestry list is non-empty and has
comma-free entries, decoding the encoded row restores the ancestry
exactly, in both the TaskIns and the TaskRes codec.  (For the empty
list the decode yields `[""]`, see the counterexample.) -/
theorem C9_ancestry_round_trip (t : TaskMsg) (hne : t.task.ancestry ≠ [])
    (hnc : ∀ a ∈ t.task.ancestry, ',' ∉ a.data) :
    (dict_to_task_ins (task_ins_to_dict t)).task.ancestry = t.task.ancestry ∧
    (dict_to_task_res (task_res_to_dict t)).task.ancestry = t.task.ancestry := by
  constructor <;>
    simp [dict_to_task_ins, task_ins_to_dict, dict_to_task_res, task_res_to_dict,
      splitAncestry_joinAncestry t.task.ancestry hne hnc]

/-- C9 witness: the round-trip evaluated on a concrete two-entry ancestry. -/
theorem C9_ancestry_round_trip_witness :
    ((anonMsg none ["p1", "p2"]).task.ancestry ≠ [] ∧
      ∀ a ∈ (anonMsg none ["p1", "p2"]).task.ancestry, ',' ∉ a.data) ∧
    (dict_to_task_ins (task_ins_to_dict (anonMsg none ["p1", "p2"]))).task.ancestry =
      (anonMsg none ["p1", "p2"]).task.ancestry :=
  ⟨⟨by decide, by decide⟩,
    (C9_ancestry_round_trip (anonMsg none ["p1", "p2"]) (by decide) (by decide)).1⟩

/-- C4: addressing isolation of `get_task_ins`.  With `node_id` unset the
call returns only anonymous records addressed to node 0; with
`node_id = 0` it returns the empty list; with `node_id = n ≠ 0` it
returns only non-anonymous records addressed to `n` (assuming the
`UNIQUE` constraint on `task_id`, i.e. no duplicate ids in the table). -/
theorem C4_get_task_ins_addressing_isolation
    (s : State) (node_id : Option Int) (limit : Option Int) (now : Nat)
    (res : List TaskMsg) (s' : State)
    (hnd : (s.task_ins.map Row.task_id).Nodup)
    (h : get_task_ins s node_id limit now = Except.ok (res, s')) :
    (node_id = some 0 → res = []) ∧
    (node_id = none →
      ∀ r ∈ res, r.task.consumer.anonymous = true ∧ r.task.consumer.node_id = 0) ∧
    (∀ n : Int, n ≠ 0 → node_id = some n →
      ∀ r ∈ res, r.task.consumer.anonymous = false ∧ r.task.consumer.node_id = n) := by
  rcases get_task_ins_ok_inv h with ⟨hres, -⟩ | ⟨hnid, hres, -⟩
  · subst hres
    exact ⟨fun _ => rfl,
      fun _ r hr => absurd hr (List.not_mem_nil r),
      fun n _ _ r hr => absurd hr (List.not_mem_nil r)⟩
  · refine ⟨fun h0 => absurd h0 hnid, ?_, ?_⟩
    · rintro rfl r hr
      rw [hres] at hr
      obtain ⟨row, hrow, rfl⟩ := List.mem_map.mp hr
      obtain ⟨orig, horig, rfl⟩ :=
        mem_returned hnd (fun x hx => get_task_ins_select_subset hx) hrow
      obtain ⟨h1, h2⟩ := get_task_ins_select_spec_none horig
      constructor
      · simpa [dict_to_task_ins, deliver] using h1
      · simpa [dict_to_task_ins, deliver] using h2
    · rintro n hn rfl r hr
      rw [hres] at hr
      obtain ⟨row, hrow, rfl⟩ := List.mem_map.mp hr
      obtain ⟨orig, horig, rfl⟩ :=
        mem_returned hnd (fun x hx => get_task_ins_select_subset hx) hrow
      obtain ⟨h1, h2⟩ := get_task_ins_select_spec_some horig
      constructor
      · simpa [dict_to_task_ins, deliver] using h1
      · simpa [dict_to_task_ins, deliver] using h2

/-- C4 witness: the anonymous case evaluated on a one-row state. -/
theorem C4_addressing_isolation_witness :
    ((({ task_ins := [anonInsRow "t4" none], task_res := [], node := [] } :
        State)).task_ins.map Row.task_id).Nodup ∧
    ((dict_to_task_ins (anonInsRow "t4" (some 5))).task.consumer.anonymous = true ∧
      (dict_to_task_ins (anonInsRow "t4" (some 5))).task.consumer.node_id = 0) := by
  refine ⟨by decide, ?_⟩
  have h := C4_get_task_ins_addressing_isolation
    { task_ins := [anonInsRow "t4" none], task_res := [], node := [] } none none 5
    [dict_to_task_ins (anonInsRow "t4" (some 5))]
    { task_ins := [anonInsRow "t4" (some 5)], task_res := [], node := [] }
    (by decide) rfl
  exact h.2.1 rfl _ (List.mem_singleton.mpr rfl)

/-- C8: the `limit` contract of `get_task_ins` and `get_task_res`.  A given
`limit < 1` fails with the invalid-argument error (before any state is
touched — the model returns the error and no state); a given `limit ≥ 1`
caps the number of returned records at `limit`. -/
theorem C8_limit_contract
    (s : State) (node_id : Option Int) (task_ids : List String) (now : Nat) (l : Int)
    (hins : (s.task_ins.map Row.task_id).Nodup)
    (hres : (s.task_res.map Row.task_id).Nodup) :
    (l < 1 →
      get_task_ins s node_id (some l) now = Except.error limitError ∧
      get_task_res s task_ids (some l) now = Except.error limitError) ∧
    (1 ≤ l →
      (∀ res s', get_task_ins s node_id (some l) now = Except.ok (res, s') →
        (res.length : Int) ≤ l) ∧
      (∀ res s', get_task_res s task_ids (some l) now = Except.ok (res, s') →
        (res.length : Int) ≤ l)) := by
  constructor
  · intro hlt
    have hbad : badLimit (some l) = true := by simp [badLimit, hlt]
    constructor
    · unfold get_task_ins
      rw [if_pos hbad]
    · unfold get_task_res
      rw [if_pos hbad]
  · intro hge
    constructor
    · intro res0 s' h
      rcases get_task_ins_ok_inv h with ⟨hres0, -⟩ | ⟨-, hres0, -⟩
      · subst hres0
        simp only [List.length_nil, Nat.cast_zero]
        omega
      · have e1 : res0.length =
            ((markDelivered s.task_ins
                ((get_task_ins_select s node_id (some l)).map Row.task_id) now).filter
              (fun r => ((get_task_ins_select s node_id (some l)).map
                Row.task_id).contains r.task_id)).length := by
          rw [hres0, List.length_map]
        have e2 := returned_length_le s.task_ins
          ((get_task_ins_select s node_id (some l)).map Row.task_id) now hins
        rw [List.length_map] at e2
        have e3 := get_task_ins_select_length_le s node_id l
        omega
    · intro res0 s' h
      rcases get_task_res_ok_inv h with ⟨hres0, -⟩ | ⟨hres0, -⟩
      · subst hres0
        simp only [List.length_nil, Nat.cast_zero]
        omega
      · have e1 : res0.length =
            ((markDelivered s.task_res
                ((get_task_res_select s task_ids (some l)).map Row.task_id) now).filter
              (fun r => ((get_task_res_select s task_ids (some l)).map
                Row.task_id).contains r.task_id)).length := by
          rw [hres0, List.length_map]
        have e2 := returned_length_le s.task_res
          ((get_task_res_select s task_ids (some l)).map Row.task_id) now hres
        rw [List.length_map] at e2
        have e3 := get_task_res_select_length_le s task_ids l
        omega

/-- C8 witness: `limit = 0` fails, `limit = 1` returns at most one record,
evaluated on the empty store. -/
theorem C8_limit_contract_witness :
    ((emptyState.task_ins.map Row.task_id).Nodup ∧
      (emptyState.task_res.map Row.task_id).Nodup) ∧
    get_task_ins emptyState none (some 0) 5 = Except.error limitError ∧
    ((([] : List TaskMsg).length : Int) ≤ 1) := by
  refine ⟨⟨by decide, by decide⟩, ?_, ?_⟩
  · exact ((C8_limit_contract emptyState none [] 5 0 (by decide) (by decide)).1
      (by decide)).1
  · exact ((C8_limit_contract emptyState none [] 5 1 (by decide) (by decide)).2
      (by decide)).1 [] emptyState rfl

/-- C10: `get_task_res` matches ancestry by exact string equality of the
whole comma-joined `ancestry` column, so every returned record's joined
ancestry is one id of the set; since ids (being UUID renderings) carry
no comma, every returned record's ancestry list has exactly one entry,
and one with two or more entries is never returned. -/
theorem C10_get_task_res_exact_ancestry_match
    (s : State) (task_ids : List String) (limit : Option Int) (now : Nat)
    (res : List TaskMsg) (s' : State)
    (hnd : (s.task_res.map Row.task_id).Nodup)
    (hcomma : ∀ a ∈ task_ids, ',' ∉ a.data)
    (h : get_task_res s task_ids limit now = Except.ok (res, s')) :
    ∀ r ∈ res, joinAncestry r.task.ancestry ∈ task_ids ∧
      r.task.ancestry.length = 1 := by
  rcases get_task_res_ok_inv h with ⟨hres0, -⟩ | ⟨hres0, -⟩
  · subst hres0
    intro r hr
    exact absurd hr (List.not_mem_nil r)
  · intro r hr
    rw [hres0] at hr
    obtain ⟨row, hrow, rfl⟩ := List.mem_map.mp hr
    obtain ⟨orig, horig, rfl⟩ :=
      mem_returned hnd (fun x hx => get_task_res_select_subset hx) hrow
    have hanc : orig.ancestry ∈ task_ids := (get_task_res_select_spec horig).1
    have hsplit : splitAncestry orig.ancestry = [orig.ancestry] :=
      splitAncestry_of_no_comma _ (hcomma _ hanc)
    have hancrow : (dict_to_task_res (deliver now orig)).task.ancestry =
        [orig.ancestry] := by
      simp [dict_to_task_res, deliver, hsplit]
    rw [hancrow]
    exact ⟨by rw [joinAncestry_singleton]; exact hanc, rfl⟩

/-- C10 witness: a one-row `task_res` table, queried with its ancestry id. -/
theorem C10_exact_ancestry_match_witness :
    ((({ task_ins := [], task_res := [resRow "r10" "a10" none], node := [] } :
        State)).task_res.map Row.task_id).Nodup ∧
    (∀ a ∈ ["a10"], ',' ∉ a.data) ∧
    (joinAncestry (dict_to_task_res (deliver 5 (resRow "r10" "a10" none))).task.ancestry ∈
        ["a10"] ∧
      (dict_to_task_res (deliver 5 (resRow "r10" "a10" none))).task.ancestry.length = 1) := by
  refine ⟨by decide, by decide, ?_⟩
  have h := C10_get_task_res_exact_ancestry_match
    { task_ins := [], task_res := [resRow "r10" "a10" none], node := [] }
    ["a10"] none 5
    [dict_to_task_res (deliver 5 (resRow "r10" "a10" none))]
    { task_ins := [], task_res := [deliver 5 (resRow "r10" "a10" none)], node := [] }
    (by decide) (by decide) rfl
  exact h _ (List.mem_singleton.mpr rfl)

end FlwrState
